import Mathlib

/-!
Verification development for the Triage database-adapter excerpt.

The definitions below are a shallow embedding of the Python source:

* `src/triage/component/architect/entity_date_table_generators.py`
  (`EntityDateTableGenerator`, `SubsetEntityDateTableGenerator`)
* `src/triage/component/database/postgresql.py` (`PostgreSQLAdapter`)
* `src/triage/component/database/oracle.py` (`OracleAdapter`)
* `src/triage/component/database/schema_factory.py`
* `src/triage/component/catwalk/model_grouping.py` (`ModelGrouper`)
* `src/triage/component/catwalk/protected_groups_generators.py`
  (`ProtectedGroupsGenerator`)

Database tables are modelled as lists of rows (SQL bag semantics); each SQL
statement generated by the code is modelled by its relational effect on those
lists.  Functions of `triage.database_reflection` (`table_exists`,
`table_has_data`, `table_has_duplicates`) are not part of the excerpt's
source tree and are modelled from the spec where noted.
-/

namespace Triage

/-- A SQL timestamp, split into a calendar day and a time-of-day component.
`day` is what the SQL casts `::DATE` / `TRUNC(...)` project onto. -/
structure Ts where
  day : Nat
  tod : Nat
deriving DecidableEq, Repr

/-- Strict order on timestamps (lexicographic on day, then time of day),
modelling SQL `<` on timestamps. -/
def Ts.lt (a b : Ts) : Bool :=
  a.day < b.day || (a.day == b.day && a.tod < b.tod)

/-- Rendering of a timestamp, standing in for Python `str(as_of_date)` /
`as_of_date.isoformat()`.  The exact text is immaterial to the claims; only
which dates are rendered matters. -/
def Ts.render (t : Ts) : String :=
  toString t.day ++ "T" ++ toString t.tod

/-- One row of an entity-date (cohort) table: columns
`(entity_id, as_of_date, active)` as created by
`get_entity_date_table_ddl`. -/
structure EDRow where
  entity : Nat
  date : Ts
  active : Bool
deriving DecidableEq, Repr

/-- The `(entity_id, as_of_date)` projection of a row, used by the duplicate
check `table_has_duplicates(table, ['entity_id', 'as_of_date'], engine)`. -/
def EDRow.pair (r : EDRow) : Nat × Ts := (r.entity, r.date)

/-- Modelled from the spec: `table_has_duplicates` of
`triage.database_reflection` is not in the excerpt's source tree; the spec
pins it as `count(distinct entity_id, as_of_date) == count(*)`, i.e. the
table has duplicates iff deduplicating the key projection shrinks it. -/
def tableHasDuplicates (rows : List EDRow) : Bool :=
  (rows.map EDRow.pair).dedup.length != rows.length

/-- The user's date-parameterized cohort query, as held in
`EntityDateTableGenerator.query`: its SQL text together with the rows
(entity ids, possibly with repetitions) that running it for a given
as-of-date against the fixed underlying data returns. -/
structure EDQuery where
  text : String
  run : Ts → List Nat

/-- Configuration of an `EntityDateTableGenerator`: constructor arguments
`query`, `labels_table_name` and `replace`.  `labelsTable = some content`
means a labels table name is configured; the inner option is `none` when the
named table does not exist in the database (`table_exists` check in
`_create_and_populate_entity_date_table_from_labels`) and otherwise carries
the labels rows projected to `(entity_id, as_of_date)`. -/
structure EDGenCfg where
  tableName : String
  query : Option EDQuery
  labelsTable : Option (Option (List (Nat × Ts)))
  replace : Bool

/-- `EntityDateTableGenerator._maybe_create_entity_date_table`: when
`replace` is set or the table does not exist (`none` state), drop and
recreate it empty; otherwise keep the existing rows. -/
def maybeCreate (replace : Bool) (s : Option (List EDRow)) : List EDRow :=
  if replace || s.isNone then [] else s.getD []

/-- One iteration of the per-date loop in
`_create_and_populate_entity_date_table_from_query`: run the existence
check (`select 1 from T where as_of_date = d limit 1`); if any row exists,
skip; otherwise run the insert
(`insert into T select q.entity_id, d, true from (dated_query) q group by
1, 2, 3`), whose `group by` deduplicates the queried entity ids. -/
def queryStep (q : EDQuery) (s : List EDRow) (d : Ts) : List EDRow :=
  if s.any (fun r => r.date == d) then s
  else s ++ ((q.run d).dedup).map (fun e => ⟨e, d, true⟩)

/-- `_create_and_populate_entity_date_table_from_query`: create the table if
needed, then run the per-date check-then-insert loop over the as-of-dates. -/
def populateFromQuery (q : EDQuery) (dates : List Ts) (s : List EDRow) :
    List EDRow :=
  dates.foldl (queryStep q) s

/-- `_create_and_populate_entity_date_table_from_labels` after table
creation: if the labels table does not exist, log and return; otherwise run
`get_labels_to_entity_date_query`, which inserts the distinct
`(entity_id, as_of_date)` pairs of the labels table whose `as_of_date`
day (`::DATE` cast) does not occur among the days already present in the
entity-date table, each with `active = true`.  (The preceding
`label_dates`/`cohort_dates` overlap query in the source is only logged and
has no effect on the rows.) -/
def populateFromLabels (labels : Option (List (Nat × Ts))) (s : List EDRow) :
    List EDRow :=
  match labels with
  | none => s
  | some ls =>
    let existingDays := s.map (fun r => r.date.day)
    s ++ ((ls.filter (fun p => !(existingDays.contains p.2.day))).dedup).map
      (fun p => ⟨p.1, p.2, true⟩)

/-- The population phase of
`EntityDateTableGenerator.generate_entity_date_table`: query mode when a
query is configured, else labels mode when a labels table name is
configured, else no populated state (the `ValueError` branch). -/
def populatedState (cfg : EDGenCfg) (dates : List Ts)
    (s : Option (List EDRow)) : Option (List EDRow) :=
  match cfg.query with
  | some q => some (populateFromQuery q dates (maybeCreate cfg.replace s))
  | none =>
    match cfg.labelsTable with
    | some ls => some (populateFromLabels ls (maybeCreate cfg.replace s))
    | none => none

/-- The date list rendered by `_empty_table_message`: all dates when there
are at most 5, otherwise the first 5 followed by the ellipsis marker
(`as_of_dates if len(as_of_dates) <= 5 else as_of_dates[:5] + ["…"]`). -/
def shownDates (dates : List Ts) : List String :=
  if dates.length ≤ 5 then dates.map Ts.render
  else (dates.take 5).map Ts.render ++ ["…"]

/-- `EntityDateTableGenerator._empty_table_message`: names the configured
query (or "labels table" when none, via `self.query or "labels table"`) and
the rendered as-of-dates. -/
def emptyTableMessage (queryText : Option String) (dates : List Ts) :
    String :=
  ("Query does not return any rows for the given as_of_dates:\n            "
      ++ String.intercalate ", " (shownDates dates)
      ++ "\n            '")
    ++ (queryText.getD "labels table" ++ "'")

/-- `EntityDateTableGenerator.generate_entity_date_table`: populate, then
raise `ValueError` when the table has no data (`table_has_data`, modelled
from the spec as non-emptiness), then raise `ValueError` when the table has
duplicate `(entity_id, as_of_date)` pairs; otherwise return the final
rows. -/
def generateEntityDateTable (cfg : EDGenCfg) (dates : List Ts)
    (s : Option (List EDRow)) : Except String (List EDRow) :=
  match populatedState cfg dates s with
  | none =>
    .error "Neither query not labels table name is available, cannot compute cohort"
  | some rows =>
    if rows.isEmpty then
      .error (emptyTableMessage (cfg.query.map EDQuery.text) dates)
    else if tableHasDuplicates rows then
      .error ("Duplicates found in " ++ cfg.tableName ++ "!")
    else
      .ok rows

/-- Configuration of a `SubsetEntityDateTableGenerator`: the subset query,
the previously built cohort table (rows `(entity_id, as_of_date)` of the
table named by `cohort_table`) and the `replace` flag. -/
structure SubsetCfg where
  tableName : String
  query : Option EDQuery
  cohortTable : List (Nat × Ts)
  replace : Bool

/-- The rows produced for one date by
`get_subset_entity_date_insert_query`: the dated query's entity ids are
inner-joined against the cohort table on `entity_id` and
`as_of_date = d`, and the surrounding `group by 1, 2, 3` deduplicates;
every surviving entity gets a row `(entity, d, true)`. -/
def subsetInsertRows (qres : List Nat) (cohort : List (Nat × Ts)) (d : Ts) :
    List EDRow :=
  let joined := qres.flatMap
    (fun e => ((cohort.filter (fun c => c.1 == e && c.2 == d)).map Prod.fst))
  (joined.dedup).map (fun e => ⟨e, d, true⟩)

/-- One iteration of the per-date loop in
`SubsetEntityDateTableGenerator.create_and_populate_entity_date_table_from_query`:
same existence check as the base class, then the cohort-joined insert. -/
def subsetStep (q : EDQuery) (cohort : List (Nat × Ts)) (s : List EDRow)
    (d : Ts) : List EDRow :=
  if s.any (fun r => r.date == d) then s
  else s ++ subsetInsertRows (q.run d) cohort d

/-- `SubsetEntityDateTableGenerator.generate_entity_date_table`: when a
query is configured, create the table if needed and run the per-date loop;
when no query is configured, only log a warning (no population and no
configuration error).  Either way the method then runs only the duplicate
check (`table_has_duplicates`) — there is no non-emptiness check.  The
duplicate check on an absent table is modelled as a check on no rows. -/
def subsetGenerate (cfg : SubsetCfg) (dates : List Ts)
    (s : Option (List EDRow)) : Except String (Option (List EDRow)) :=
  let s2 : Option (List EDRow) :=
    match cfg.query with
    | some q =>
      some (dates.foldl (subsetStep q cfg.cohortTable)
        (maybeCreate cfg.replace s))
    | none => s
  if tableHasDuplicates (s2.getD []) then
    .error ("Duplicates found in " ++ cfg.tableName ++ "!")
  else
    .ok s2

/-! ### Protected groups generator -/

/-- One row of the attributes source (`from_obj`): the entity id, the
knowledge-date column value, and the values of the attribute columns. -/
structure AttrRow where
  entity : Nat
  kdate : Ts
  attrs : List String
deriving DecidableEq, Repr

/-- One row of the protected-groups table:
`(entity_id, as_of_date, <attribute columns>, cohort_hash)`.  `attrs` is
`none` when the `LEFT JOIN` matched no attributes record (SQL NULLs). -/
structure PGRow where
  entity : Nat
  date : Ts
  attrs : Option (List String)
  hash : String
deriving DecidableEq, Repr

/-- The attributes record selected for an entity by the recency resolution
of `get_protected_groups_insert_query`: among the `from_obj` rows for this
entity whose knowledge date is strictly before the as-of-date
(`cohort.as_of_date > from_obj.<knowledge_date_column>`), keep the one with
the greatest knowledge date (`order by ... <knowledge_date_column> desc`
with `distinct on`; the first record wins among exact-timestamp ties). -/
def bestAttrRow (fromObj : List AttrRow) (e : Nat) (d : Ts) :
    Option AttrRow :=
  (fromObj.filter (fun r => r.entity == e && Ts.lt r.kdate d)).foldl
    (fun acc r =>
      match acc with
      | none => some r
      | some b => if Ts.lt b.kdate r.kdate then some r else some b)
    none

/-- The rows inserted by `ProtectedGroupsGenerator.generate` for one
as-of-date: one row per distinct entity present in the cohort table on that
date, carrying the recency-resolved attributes, the (constant) as-of-date
and the (constant) cohort hash. -/
def protectedInsertRows (cohort : List (Nat × Ts)) (fromObj : List AttrRow)
    (d : Ts) (h : String) : List PGRow :=
  (((cohort.filter (fun c => c.2 == d)).map Prod.fst).dedup).map
    (fun e => ⟨e, d, (bestAttrRow fromObj e d).map AttrRow.attrs, h⟩)

/-- One iteration of the per-date loop in
`ProtectedGroupsGenerator.generate_all_dates`: when not replacing, check for
an existing row with this date and cohort hash and skip if found; otherwise
run the insert for this date. -/
def protectedStep (replace : Bool) (cohort : List (Nat × Ts))
    (fromObj : List AttrRow) (h : String) (s : List PGRow) (d : Ts) :
    List PGRow :=
  if !replace && s.any (fun r => r.date == d && r.hash == h) then s
  else s ++ protectedInsertRows cohort fromObj d h

/-- `ProtectedGroupsGenerator.generate_all_dates`: create the table if
absent (`none` state becomes an empty table); when `replace` is set, delete
exactly the rows whose `cohort_hash` equals the supplied hash; then run the
per-date loop.  (Index creation and the final row-count warning have no
effect on the rows.) -/
def generateAllDates (replace : Bool) (cohort : List (Nat × Ts))
    (fromObj : List AttrRow) (h : String) (dates : List Ts)
    (s : Option (List PGRow)) : List PGRow :=
  let t0 := s.getD []
  let t1 := if replace then t0.filter (fun r => r.hash != h) else t0
  dates.foldl (protectedStep replace cohort fromObj h) t1

/-! ### Model grouping -/

/-- A matrix-metadata value: either a scalar (rendered as a string) or a
list of strings (e.g. `feature_names`, `feature_groups`). -/
inductive MVal where
  | s (v : String)
  | l (v : List String)
deriving DecidableEq, Repr

/-- `DEFAULT_KEYS` of `model_grouping.py`. -/
def defaultKeys : List String :=
  ["label_timespan", "label_name", "as_of_date_frequency",
   "max_training_history", "state", "cohort_name", "feature_groups"]

/-- The three keys `_final_model_group_args` treats specially in the
custom-keys branch. -/
def specialKeys : List String := ["class_path", "parameters", "feature_names"]

/-- The argument bundle produced by `ModelGrouper._final_model_group_args`,
in the structure recognized by the `get_model_group_id` stored procedure. -/
structure ModelGroupArgs where
  class_path : String
  parameters : List (String × String)
  feature_names : MVal
  model_config : List (String × MVal)
deriving DecidableEq, Repr

/-- `ModelGrouper._final_model_group_args`.  `groupKeys` models the
`model_group_keys` frozenset as a list considered up to membership (the
source iterates a set; an assoc-list `model_config` in list order carries
the same key-value mapping).  `md` is the `matrix_metadata` mapping. -/
def finalModelGroupArgs (groupKeys : List String) (classPath : String)
    (parameters : List (String × String)) (md : String → MVal) :
    ModelGroupArgs :=
  if groupKeys.isEmpty then
    { class_path := classPath
      parameters := parameters
      feature_names := md "feature_names"
      model_config := defaultKeys.map (fun k => (k, md k)) }
  else
    { class_path := if groupKeys.contains "class_path" then classPath else ""
      parameters := if groupKeys.contains "parameters" then parameters else []
      feature_names :=
        if groupKeys.contains "feature_names" then md "feature_names"
        else .l []
      model_config :=
        ((groupKeys.dedup).filter (fun k => !(specialKeys.contains k))).map
          (fun k => (k, md k)) }

/-! ### Adapter identity resolution (`get_model_group_id`) -/

/-- Python `json.dumps` on a flat dict whose values are already rendered as
JSON text: `"key": value` pairs joined by `", "` inside braces, with the
keys sorted first when `sort_keys=True`. -/
def jsonDumps (sortKeys : Bool) (pairs : List (String × String)) : String :=
  let ps := if sortKeys then
    pairs.insertionSort (fun a b => a.1 ≤ b.1)
  else pairs
  "\x7b"
    ++ String.intercalate ", "
      (ps.map (fun kv => "\"" ++ kv.1 ++ "\": " ++ kv.2))
    ++ "\x7d"

/-- Python `str` of a list of strings, as interpolated by
`ARRAY{feature_names}` in the PostgreSQL adapter. -/
def pythonListRepr (l : List String) : String :=
  "[" ++ String.intercalate ", " (l.map (fun s => "'" ++ s ++ "'")) ++ "]"

/-- The SQL text built by `PostgreSQLAdapter.get_model_group_id` when the
stored procedure exists.  Note `feature_names=list(feature_names)`: the
feature names are interpolated in the order supplied, not sorted;
`parameters` is JSON-encoded without key sorting and `model_config` with
`sort_keys=True`. -/
def pgModelGroupQuery (classPath : String)
    (parameters : List (String × String)) (featureNames : List String)
    (modelConfig : List (String × String)) : String :=
  "SELECT get_model_group_id( "
    ++ "            '" ++ classPath ++ "'::TEXT, "
    ++ "            '" ++ jsonDumps false parameters ++ "'::JSONB, "
    ++ "             ARRAY" ++ pythonListRepr featureNames ++ "::TEXT [] , "
    ++ "            '" ++ jsonDumps true modelConfig ++ "'::JSONB )"

/-- `PostgreSQLAdapter.get_model_group_id`: after the
`pg_catalog.pg_proc` existence check (a read-only SELECT), either execute
the stored-procedure call and return its id, or — when the procedure is
absent — return no identity without executing anything further.  The second
component is the procedure call made, `none` when no call (hence no
insert) happened; `proc` models the backend stored procedure as a function
of the executed SQL text. -/
def pgGetModelGroupId (procExists : Bool) (proc : String → Nat)
    (classPath : String) (parameters : List (String × String))
    (featureNames : List String) (modelConfig : List (String × String)) :
    Option Nat × Option String :=
  if procExists then
    let q := pgModelGroupQuery classPath parameters featureNames modelConfig
    (some (proc q), some q)
  else
    (none, none)

/-- The named bind parameters passed by
`OracleAdapter.get_model_group_id` to `admin.get_model_group_id`. -/
structure OracleCall where
  class_path : String
  parameters_json : String
  feature_names_list : String
  model_config_json : String
deriving DecidableEq, Repr

/-- `OracleAdapter.get_model_group_id`: after the `user_objects` existence
check, either call the stored function with named bind parameters — the
feature names joined into a sorted comma-separated string
(`','.join(sorted(feature_names))`) — or, when the function is absent,
return no identity without executing anything further. -/
def oracleGetModelGroupId (procExists : Bool) (proc : OracleCall → Nat)
    (classPath : String) (parameters : List (String × String))
    (featureNames : List String) (modelConfig : List (String × String)) :
    Option Nat × Option OracleCall :=
  if procExists then
    let call : OracleCall :=
      { class_path := classPath
        parameters_json := jsonDumps false parameters
        feature_names_list :=
          String.intercalate ","
            (featureNames.insertionSort (fun a b => a ≤ b))
        model_config_json := jsonDumps true modelConfig }
    (some (proc call), some call)
  else
    (none, none)

/-! ### Schema factory -/

/-- The two concrete adapters resolvable by the schema factory. -/
inductive AdapterKind where
  | pg
  | ora
deriving DecidableEq, Repr

/-- Python's `needle in haystack` substring test. -/
def containsSub (needle hay : String) : Bool :=
  hay.data.tails.any (fun t => needle.data.isPrefixOf t)

/-- The driver-probe tail of `_auto_detect_adapter`: PostgreSQL when
`psycopg2` is importable, else Oracle when `oracledb` is importable, else
PostgreSQL as the final default. -/
def driverProbe (hasPsycopg2 hasOracledb : Bool) : AdapterKind :=
  if hasPsycopg2 then .pg
  else if hasOracledb then .ora
  else .pg

/-- `_auto_detect_adapter`: when a (truthy, i.e. non-empty) URL is supplied,
match `'postgresql' in db_url or 'postgres' in db_url` first, then
`'oracle' in db_url`; on no match fall through to the driver probe. -/
def autoDetectAdapter (dbUrl : Option String) (hasPsycopg2 hasOracledb : Bool) :
    AdapterKind :=
  match dbUrl with
  | some u =>
    if u ≠ "" && (containsSub "postgresql" u || containsSub "postgres" u) then
      .pg
    else if u ≠ "" && containsSub "oracle" u then .ora
    else driverProbe hasPsycopg2 hasOracledb
  | none => driverProbe hasPsycopg2 hasOracledb

/-- `set_schema_factory`: bind the explicitly supplied adapter, or
auto-detect one when none is supplied; the new binding replaces any prior
state unconditionally. -/
def setSchemaFactory (adapter : Option AdapterKind) (dbUrl : Option String)
    (hasPsycopg2 hasOracledb : Bool) (st : Option AdapterKind) :
    Option AdapterKind :=
  match adapter, st with
  | some a, _ => some a
  | none, _ => some (autoDetectAdapter dbUrl hasPsycopg2 hasOracledb)

/-- `get_schema_factory`: return the bound factory, auto-configuring a
default one (no adapter, no URL) on first access when none is set.  Returns
the factory's adapter together with the new global state. -/
def getSchemaFactory (hasPsycopg2 hasOracledb : Bool)
    (st : Option AdapterKind) : AdapterKind × Option AdapterKind :=
  match st with
  | some a => (a, some a)
  | none =>
    let st2 := setSchemaFactory none none hasPsycopg2 hasOracledb none
    (st2.getD (driverProbe hasPsycopg2 hasOracledb), st2)

/-! ### Helper lemmas -/

/-- A fold whose steps only append rows extends its initial state. -/
theorem foldl_extends {α β : Type} (f : List α → β → List α)
    (hf : ∀ s d, ∃ u, f s d = s ++ u) :
    ∀ (l : List β) (s : List α), ∃ u, l.foldl f s = s ++ u := by
  intro l
  induction l with
  | nil => exact fun s => ⟨[], (List.append_nil s).symm⟩
  | cons d rest ih =>
    intro s
    obtain ⟨u1, hu1⟩ := hf s d
    obtain ⟨u2, hu2⟩ := ih (f s d)
    exact ⟨u1 ++ u2, by rw [List.foldl_cons, hu2, hu1, List.append_assoc]⟩

/-- A fold each of whose steps fixes the state leaves it unchanged. -/
theorem foldl_fixed {α β : Type} (f : α → β → α) (s : α) :
    ∀ (l : List β), (∀ d ∈ l, f s d = s) → l.foldl f s = s := by
  intro l
  induction l with
  | nil => intro _; rfl
  | cons d rest ih =>
    intro h
    rw [List.foldl_cons, h d (List.mem_cons_self d rest)]
    exact ih (fun e he => h e (List.mem_cons_of_mem d he))

theorem queryStep_extends (q : EDQuery) (s : List EDRow) (d : Ts) :
    ∃ u, queryStep q s d = s ++ u := by
  unfold queryStep
  by_cases hA : s.any (fun r => r.date == d)
  · exact ⟨[], by rw [if_pos hA, List.append_nil]⟩
  · exact ⟨_, by rw [if_neg hA]⟩

theorem populateFromQuery_extends (q : EDQuery) (dates : List Ts)
    (s : List EDRow) : ∃ u, populateFromQuery q dates s = s ++ u :=
  foldl_extends _ (queryStep_extends q) dates s

/-- Any row property witnessed by `List.any` survives query-mode
population, because population only appends rows. -/
theorem populateFromQuery_any_mono (q : EDQuery) (dates : List Ts)
    (s : List EDRow) (p : EDRow → Bool) (h : s.any p = true) :
    (populateFromQuery q dates s).any p = true := by
  obtain ⟨u, hu⟩ := populateFromQuery_extends q dates s
  rw [hu, List.any_append, h, Bool.true_or]

/-- After query-mode population, every as-of-date whose query result is
non-empty has at least one row in the table. -/
theorem populateFromQuery_covers (q : EDQuery) :
    ∀ (dates : List Ts) (s : List EDRow) (d : Ts), d ∈ dates →
      q.run d ≠ [] →
      (populateFromQuery q dates s).any (fun r => r.date == d) = true := by
  intro dates
  induction dates with
  | nil => intro s d hd; exact absurd hd (List.not_mem_nil d)
  | cons d0 rest ih =>
    intro s d hd hq
    rw [populateFromQuery, List.foldl_cons]
    rcases List.mem_cons.mp hd with rfl | hmem
    · have hstep : (queryStep q s d).any (fun r => r.date == d) = true := by
        unfold queryStep
        by_cases hA : s.any (fun r => r.date == d)
        · rw [if_pos hA]; exact hA
        · rw [if_neg hA, List.any_append]
          have hne : (q.run d).dedup ≠ [] := by
            intro hnil
            exact hq ((List.dedup_eq_nil _).mp hnil)
          obtain ⟨e, he⟩ := List.exists_mem_of_ne_nil _ hne
          have : (⟨e, d, true⟩ : EDRow) ∈
              ((q.run d).dedup).map (fun e => (⟨e, d, true⟩ : EDRow)) :=
            List.mem_map_of_mem _ he
          have hany : (((q.run d).dedup).map
              (fun e => (⟨e, d, true⟩ : EDRow))).any
                (fun r => r.date == d) = true := by
            refine List.any_eq_true.mpr ⟨_, this, ?_⟩
            exact beq_self_eq_true d
          rw [hany, Bool.or_true]
      exact populateFromQuery_any_mono q rest _ _ hstep
    · exact ih (queryStep q s d0) d hmem hq

/-- Query-mode population is idempotent: a second pass over the same
as-of-dates changes nothing. -/
theorem populateFromQuery_idem (q : EDQuery) (dates : List Ts)
    (s : List EDRow) :
    populateFromQuery q dates (populateFromQuery q dates s) =
      populateFromQuery q dates s := by
  set s1 := populateFromQuery q dates s with hs1
  refine foldl_fixed _ s1 dates (fun d hd => ?_)
  unfold queryStep
  by_cases hA : s1.any (fun r => r.date == d)
  · rw [if_pos hA]
  · rw [if_neg hA]
    have hrun : q.run d = [] := by
      by_contra hne
      exact hA (hs1 ▸ populateFromQuery_covers q dates s d hd hne)
    rw [hrun]
    simp

/-! ### Claim theorems -/

/-- Claim C2: invoking `generate_entity_date_table` twice with
`replace=False` over the same as-of-dates and the same underlying data (the
same query-result function) yields the same final rows as invoking it once:
a successful first invocation produces a state from which a second
invocation succeeds with exactly the same rows, because each per-date
existence check now finds the rows inserted (or already skipped) by the
first invocation and the existing table is not dropped. -/
theorem claim2_generate_idempotent (cfg : EDGenCfg) (q : EDQuery)
    (dates : List Ts) (s0 : Option (List EDRow)) (s1 : List EDRow)
    (hq : cfg.query = some q) (hr : cfg.replace = false)
    (h : generateEntityDateTable cfg dates s0 = .ok s1) :
    generateEntityDateTable cfg dates (some s1) = .ok s1 := by
  have hps : populatedState cfg dates s0 =
      some (populateFromQuery q dates (maybeCreate cfg.replace s0)) := by
    simp [populatedState, hq]
  simp only [generateEntityDateTable, hps] at h
  by_cases he : (populateFromQuery q dates (maybeCreate cfg.replace s0)).isEmpty
  · rw [if_pos he] at h
    exact absurd h (by simp)
  rw [if_neg he] at h
  by_cases hd :
      tableHasDuplicates (populateFromQuery q dates (maybeCreate cfg.replace s0))
  · rw [if_pos hd] at h
    exact absurd h (by simp)
  rw [if_neg hd] at h
  have hs1 : populateFromQuery q dates (maybeCreate cfg.replace s0) = s1 := by
    simpa using h
  rw [hs1] at he hd
  have hmc : maybeCreate cfg.replace (some s1) = s1 := by
    simp [maybeCreate, hr]
  have hps2 : populatedState cfg dates (some s1) =
      some (populateFromQuery q dates s1) := by
    simp [populatedState, hq, hmc]
  have hpop2 : populateFromQuery q dates s1 = s1 := by
    conv_lhs => rw [← hs1]
    rw [populateFromQuery_idem, hs1]
  simp only [generateEntityDateTable, hps2, hpop2]
  rw [if_neg he, if_neg hd]

/-- Claim C2 witness: a concrete table generated once with `replace=False`
regenerates to exactly itself. -/
theorem claim2_witness :
    generateEntityDateTable
      ⟨"cohort", some ⟨"select entity_id from events", fun _ => [1]⟩, none,
        false⟩
      [⟨1, 0⟩] (some [⟨1, ⟨1, 0⟩, true⟩]) = .ok [⟨1, ⟨1, 0⟩, true⟩] :=
  claim2_generate_idempotent _ _ _ none _ rfl rfl rfl

/-- Claim C3: after every successful run of `generate_entity_date_table`
the table has no duplicate `(entity_id, as_of_date)` pairs — the distinct
count of the key projection equals the row count — and whenever the
populated table does contain duplicate pairs the call raises the
`ValueError` naming the table. -/
theorem claim3_no_duplicates (cfg : EDGenCfg) (dates : List Ts)
    (s0 : Option (List EDRow)) :
    (∀ s1, generateEntityDateTable cfg dates s0 = .ok s1 →
      (s1.map EDRow.pair).dedup.length = s1.length)
    ∧ (∀ s2, populatedState cfg dates s0 = some s2 →
        tableHasDuplicates s2 = true →
        generateEntityDateTable cfg dates s0 =
          .error ("Duplicates found in " ++ cfg.tableName ++ "!")) := by
  constructor
  · intro s1 h
    cases hps : populatedState cfg dates s0 with
    | none =>
      simp only [generateEntityDateTable, hps] at h
      exact absurd h (by simp)
    | some rows =>
      simp only [generateEntityDateTable, hps] at h
      by_cases he : rows.isEmpty
      · rw [if_pos he] at h
        exact absurd h (by simp)
      rw [if_neg he] at h
      by_cases hd : tableHasDuplicates rows
      · rw [if_pos hd] at h
        exact absurd h (by simp)
      rw [if_neg hd] at h
      have hrows : rows = s1 := by simpa using h
      subst hrows
      unfold tableHasDuplicates at hd
      simpa using hd
  · intro s2 hps hdup
    simp only [generateEntityDateTable, hps]
    have he : s2.isEmpty = false := by
      cases s2 with
      | nil => simp [tableHasDuplicates] at hdup
      | cons r rest => rfl
    rw [if_neg (by simp [he]), if_pos hdup]

/-- Claim C3 witness: a successful concrete run has distinct key pairs, and
a concrete labels-mode run whose populated table has a duplicate pair
raises the duplicate error. -/
theorem claim3_witness :
    (([(⟨1, ⟨1, 0⟩, true⟩ : EDRow), ⟨2, ⟨1, 0⟩, true⟩].map EDRow.pair).dedup.length
      = 2)
    ∧ generateEntityDateTable
        ⟨"cohort", some ⟨"q", fun _ => []⟩, none, false⟩ []
        (some [⟨1, ⟨1, 0⟩, true⟩, ⟨1, ⟨1, 0⟩, true⟩]) =
        .error ("Duplicates found in " ++ "cohort" ++ "!") := by
  constructor
  · exact (claim3_no_duplicates
      ⟨"cohort", some ⟨"q", fun _ => [1, 2]⟩, none, true⟩ [⟨1, 0⟩] none).1
      _ rfl
  · exact (claim3_no_duplicates
      ⟨"cohort", some ⟨"q", fun _ => []⟩, none, false⟩ []
      (some [⟨1, ⟨1, 0⟩, true⟩, ⟨1, ⟨1, 0⟩, true⟩])).2
      [⟨1, ⟨1, 0⟩, true⟩, ⟨1, ⟨1, 0⟩, true⟩] rfl (by decide)

/-- Claim C4: when the configured query returns zero entities for every
supplied as-of-date (and the table is being rebuilt, `replace=True`),
`generate_entity_date_table` raises rather than leaving a silent empty
table; the message names the originating query (or the labels-table source
when no query is configured) and renders all the as-of-dates when there are
at most 5, else the first 5 followed by the ellipsis marker. -/
theorem claim4_empty_error (cfg : EDGenCfg) (q : EDQuery) (dates : List Ts)
    (s0 : Option (List EDRow))
    (hq : cfg.query = some q) (hrep : cfg.replace = true)
    (hempty : ∀ d ∈ dates, q.run d = []) :
    generateEntityDateTable cfg dates s0 =
      .error (emptyTableMessage (some q.text) dates)
    ∧ (∃ a b, emptyTableMessage (some q.text) dates = a ++ (q.text ++ b))
    ∧ (∃ a b, emptyTableMessage none dates = a ++ ("labels table" ++ b))
    ∧ (dates.length ≤ 5 → shownDates dates = dates.map Ts.render)
    ∧ (5 < dates.length →
        shownDates dates = (dates.take 5).map Ts.render ++ ["…"]) := by
  refine ⟨?_,
    ⟨"Query does not return any rows for the given as_of_dates:\n            "
        ++ String.intercalate ", " (shownDates dates) ++ "\n            '",
      "'", by unfold emptyTableMessage; rfl⟩,
    ⟨"Query does not return any rows for the given as_of_dates:\n            "
        ++ String.intercalate ", " (shownDates dates) ++ "\n            '",
      "'", by unfold emptyTableMessage; rfl⟩, ?_, ?_⟩
  · have hmc : maybeCreate cfg.replace s0 = [] := by
      simp [maybeCreate, hrep]
    have hpop : populateFromQuery q dates [] = [] := by
      refine foldl_fixed _ [] dates (fun d hd => ?_)
      unfold queryStep
      rw [if_neg (by simp), hempty d hd]
      simp
    have hps : populatedState cfg dates s0 = some [] := by
      simp [populatedState, hq, hmc, hpop]
    simp only [generateEntityDateTable, hps]
    rw [hq]
    rfl
  · intro hle
    rw [shownDates, if_pos hle]
  · intro hgt
    rw [shownDates, if_neg (by omega)]

/-- Claim C4 witness: six zero-result as-of-dates produce the empty-table
error whose rendered date list is the first five plus the ellipsis. -/
theorem claim4_witness :
    generateEntityDateTable
      ⟨"cohort", some ⟨"select entity_id from events", fun _ => []⟩, none,
        true⟩
      [⟨1, 0⟩, ⟨2, 0⟩, ⟨3, 0⟩, ⟨4, 0⟩, ⟨5, 0⟩, ⟨6, 0⟩] none =
      .error (emptyTableMessage (some "select entity_id from events")
        [⟨1, 0⟩, ⟨2, 0⟩, ⟨3, 0⟩, ⟨4, 0⟩, ⟨5, 0⟩, ⟨6, 0⟩])
    ∧ shownDates [⟨1, 0⟩, ⟨2, 0⟩, ⟨3, 0⟩, ⟨4, 0⟩, ⟨5, 0⟩, ⟨6, 0⟩] =
      ([⟨1, 0⟩, ⟨2, 0⟩, ⟨3, 0⟩, ⟨4, 0⟩, ⟨5, 0⟩].map Ts.render) ++ ["…"] := by
  have h := claim4_empty_error
    ⟨"cohort", some ⟨"select entity_id from events", fun _ => []⟩, none,
      true⟩
    ⟨"select entity_id from events", fun _ => []⟩
    [⟨1, 0⟩, ⟨2, 0⟩, ⟨3, 0⟩, ⟨4, 0⟩, ⟨5, 0⟩, ⟨6, 0⟩] none rfl rfl
    (fun d _ => rfl)
  exact ⟨h.1, by simpa using h.2.2.2.2 (by simp)⟩

/-- Claim C5: in labels-derivation mode (no query, labels table configured
and existing, `replace=False`), population inserts exactly the distinct
labels `(entity_id, as_of_date)` pairs whose day is not already present in
the target table, each with `active=true`: with the target pre-populated
for day `d1` and no rows for day `d2`, the populated table `P` has no
additional rows for `d1` (even for entities missing from the target), it
contains every distinct labels pair for `d2`, and every row of `P` is
either an original target row or an inserted labels pair with a
previously-absent day and `active=true`. -/
theorem claim5_labels_date_gating (cfg : EDGenCfg) (ls : List (Nat × Ts))
    (t0 : List EDRow) (dates : List Ts) (d1 d2 : Nat)
    (hq : cfg.query = none) (hl : cfg.labelsTable = some (some ls))
    (hr : cfg.replace = false)
    (hD1 : ∃ r ∈ t0, r.date.day = d1)
    (hD2 : ∀ r ∈ t0, r.date.day ≠ d2) :
    ∃ P, populatedState cfg dates (some t0) = some P
      ∧ P.filter (fun r => r.date.day == d1) =
          t0.filter (fun r => r.date.day == d1)
      ∧ (∀ e t, (e, t) ∈ ls → t.day = d2 → (⟨e, t, true⟩ : EDRow) ∈ P)
      ∧ (∀ r ∈ P, r ∈ t0 ∨
          (r.active = true ∧ (r.entity, r.date) ∈ ls ∧
            ∀ r0 ∈ t0, r0.date.day ≠ r.date.day)) := by
  have hmc : maybeCreate cfg.replace (some t0) = t0 := by
    simp [maybeCreate, hr]
  refine ⟨populateFromLabels (some ls) t0, by simp [populatedState, hq, hl, hmc],
    ?_, ?_, ?_⟩
  · rw [populateFromLabels, List.filter_append]
    have hnil :
        ((((ls.filter (fun p =>
              !((t0.map (fun r => r.date.day)).contains p.2.day))).dedup).map
            (fun p => (⟨p.1, p.2, true⟩ : EDRow))).filter
          (fun r => r.date.day == d1)) = [] := by
      refine List.filter_eq_nil_iff.mpr (fun r hrmem => ?_)
      obtain ⟨p, hp, rfl⟩ := List.mem_map.mp hrmem
      have hp2 := List.mem_filter.mp (List.mem_dedup.mp hp)
      have hnc : p.2.day ∉ t0.map (fun r => r.date.day) := by
        simpa using hp2.2
      obtain ⟨r1, hr1, hr1d⟩ := hD1
      intro hbeq
      have hpd : p.2.day = d1 := by simpa using hbeq
      refine hnc ?_
      rw [hpd, ← hr1d]
      exact List.mem_map_of_mem (fun r => r.date.day) hr1
    rw [hnil, List.append_nil]
  · intro e t hmem ht
    rw [populateFromLabels]
    refine List.mem_append_right _ ?_
    have hnc : (t0.map (fun r => r.date.day)).contains t.day = false := by
      have : t.day ∉ t0.map (fun r => r.date.day) := by
        intro hcon
        obtain ⟨r0, hr0, hr0d⟩ := List.mem_map.mp hcon
        exact hD2 r0 hr0 (ht ▸ hr0d)
      simpa using this
    have hf : (e, t) ∈ ls.filter (fun p =>
        !((t0.map (fun r => r.date.day)).contains p.2.day)) := by
      refine List.mem_filter.mpr ⟨hmem, ?_⟩
      show (!((t0.map (fun r => r.date.day)).contains t.day)) = true
      rw [hnc]
      rfl
    exact List.mem_map_of_mem _ (List.mem_dedup.mpr hf)
  · intro r hrmem
    rw [populateFromLabels] at hrmem
    rcases List.mem_append.mp hrmem with hleft | hright
    · exact Or.inl hleft
    · obtain ⟨p, hp, rfl⟩ := List.mem_map.mp hright
      have hp2 := List.mem_filter.mp (List.mem_dedup.mp hp)
      refine Or.inr ⟨rfl, by simpa using hp2.1, fun r0 hr0 hday => ?_⟩
      have hnc : p.2.day ∉ t0.map (fun r => r.date.day) := by
        simpa using hp2.2
      exact hnc (hday ▸ List.mem_map_of_mem (fun r => r.date.day) hr0)

/-- Claim C5 witness: with the target pre-populated for day 1 and labels
rows on days 1 and 2, no day-1 rows are added and the day-2 pair is
inserted. -/
theorem claim5_witness :
    ∃ P, populatedState
        ⟨"cohort", none, some (some [(2, ⟨1, 0⟩), (3, ⟨2, 0⟩)]), false⟩
        [] (some [⟨1, ⟨1, 0⟩, true⟩]) = some P
      ∧ P.filter (fun r => r.date.day == 1) =
          [⟨1, ⟨1, 0⟩, true⟩].filter (fun r => r.date.day == 1)
      ∧ (∀ e t, (e, t) ∈ [((2 : Nat), (⟨1, 0⟩ : Ts)), (3, ⟨2, 0⟩)] →
          t.day = 2 → (⟨e, t, true⟩ : EDRow) ∈ P)
      ∧ (∀ r ∈ P, r ∈ [(⟨1, ⟨1, 0⟩, true⟩ : EDRow)] ∨
          (r.active = true ∧
            (r.entity, r.date) ∈ [((2 : Nat), (⟨1, 0⟩ : Ts)), (3, ⟨2, 0⟩)] ∧
            ∀ r0 ∈ [(⟨1, ⟨1, 0⟩, true⟩ : EDRow)], r0.date.day ≠ r.date.day)) :=
  claim5_labels_date_gating _ _ _ [] 1 2 rfl rfl rfl
    ⟨⟨1, ⟨1, 0⟩, true⟩, by decide⟩ (by decide)

theorem protectedInsertRows_hash_date (cohort : List (Nat × Ts))
    (fromObj : List AttrRow) (d : Ts) (h : String) :
    ∀ r ∈ protectedInsertRows cohort fromObj d h, r.hash = h ∧ r.date = d := by
  intro r hr
  obtain ⟨e, _, rfl⟩ := List.mem_map.mp hr
  exact ⟨rfl, rfl⟩

theorem protectedStep_extends (rep : Bool) (cohort : List (Nat × Ts))
    (fromObj : List AttrRow) (h : String) (t : List PGRow) (d : Ts) :
    ∃ u, protectedStep rep cohort fromObj h t d = t ++ u := by
  unfold protectedStep
  by_cases hc : (!rep && t.any fun r => r.date == d && r.hash == h) = true
  · exact ⟨[], by rw [if_pos hc, List.append_nil]⟩
  · exact ⟨_, by rw [if_neg hc]⟩

/-- The per-date loop of `generate_all_dates` never touches rows whose
cohort hash differs from the supplied one. -/
theorem protectedLoop_filter_hash (rep : Bool) (cohort : List (Nat × Ts))
    (fromObj : List AttrRow) (h : String) :
    ∀ (dates : List Ts) (t : List PGRow),
      (dates.foldl (protectedStep rep cohort fromObj h) t).filter
        (fun r => r.hash != h) = t.filter (fun r => r.hash != h) := by
  intro dates
  induction dates with
  | nil => intro t; rfl
  | cons d rest ih =>
    intro t
    rw [List.foldl_cons, ih]
    unfold protectedStep
    by_cases hc : (!rep && t.any fun r => r.date == d && r.hash == h) = true
    · rw [if_pos hc]
    · rw [if_neg hc, List.filter_append]
      have hnil : (protectedInsertRows cohort fromObj d h).filter
          (fun r => r.hash != h) = [] := by
        refine List.filter_eq_nil_iff.mpr (fun r hr => ?_)
        have := (protectedInsertRows_hash_date cohort fromObj d h r hr).1
        simp [this]
      rw [hnil, List.append_nil]

/-- With `replace=False`, once a `(date, hash)` row exists the per-date
loop never inserts further rows for that date and hash. -/
theorem protectedLoop_skip (cohort : List (Nat × Ts))
    (fromObj : List AttrRow) (h : String) (d : Ts) :
    ∀ (dates : List Ts) (t : List PGRow),
      (∃ r ∈ t, r.date = d ∧ r.hash = h) →
      (dates.foldl (protectedStep false cohort fromObj h) t).filter
          (fun r => r.date == d && r.hash == h)
        = t.filter (fun r => r.date == d && r.hash == h) := by
  intro dates
  induction dates with
  | nil => intro t _; rfl
  | cons d0 rest ih =>
    intro t hw
    rw [List.foldl_cons]
    by_cases hc : (!false && t.any fun r => r.date == d0 && r.hash == h) = true
    · rw [show protectedStep false cohort fromObj h t d0 = t from by
        unfold protectedStep
        rw [if_pos hc]]
      exact ih t hw
    · obtain ⟨r0, hr0, hr0d, hr0h⟩ := hw
      rw [show protectedStep false cohort fromObj h t d0 =
          t ++ protectedInsertRows cohort fromObj d0 h from by
        unfold protectedStep
        rw [if_neg hc]]
      have hw2 : ∃ r ∈ t ++ protectedInsertRows cohort fromObj d0 h,
          r.date = d ∧ r.hash = h :=
        ⟨r0, List.mem_append_left _ hr0, hr0d, hr0h⟩
      rw [ih _ hw2, List.filter_append]
      have hne : d0 ≠ d := by
        rintro rfl
        refine hc ?_
        rw [Bool.not_false, Bool.true_and]
        exact List.any_eq_true.mpr ⟨r0, hr0, by simp [hr0d, hr0h]⟩
      have hnil : (protectedInsertRows cohort fromObj d0 h).filter
          (fun r => r.date == d && r.hash == h) = [] := by
        refine List.filter_eq_nil_iff.mpr (fun r hr => ?_)
        have hd0 := (protectedInsertRows_hash_date cohort fromObj d0 h r hr).2
        simp [hd0, hne]
      rw [hnil, List.append_nil]

/-- Claim C7: `ProtectedGroupsGenerator.generate_all_dates` with
`replace=True` deletes only the rows carrying the supplied cohort hash
before regenerating — rows with any other hash survive unchanged — while
with `replace=False` it deletes nothing (the prior rows form a prefix of
the result) and inserts no further `(date, hash)` row for any as-of-date
that already has one. -/
theorem claim7_protected_groups_frame (cohort : List (Nat × Ts))
    (fromObj : List AttrRow) (h : String) (dates : List Ts)
    (t0 : List PGRow) :
    (generateAllDates true cohort fromObj h dates (some t0)).filter
        (fun r => r.hash != h) = t0.filter (fun r => r.hash != h)
    ∧ (∃ added, generateAllDates false cohort fromObj h dates (some t0) =
        t0 ++ added)
    ∧ (∀ d, (∃ r ∈ t0, r.date = d ∧ r.hash = h) →
        (generateAllDates false cohort fromObj h dates (some t0)).filter
            (fun r => r.date == d && r.hash == h)
          = t0.filter (fun r => r.date == d && r.hash == h)) := by
  refine ⟨?_, ?_, ?_⟩
  · show (dates.foldl (protectedStep true cohort fromObj h)
        (t0.filter (fun r => r.hash != h))).filter (fun r => r.hash != h)
      = t0.filter (fun r => r.hash != h)
    rw [protectedLoop_filter_hash]
    refine List.filter_eq_self.mpr (fun r hr => ?_)
    exact (List.mem_filter.mp hr).2
  · exact foldl_extends _ (protectedStep_extends false cohort fromObj h)
      dates t0
  · intro d hw
    exact protectedLoop_skip cohort fromObj h d dates t0 hw

/-- Claim C7 witness: a concrete other-hash row survives a replacing run,
and a pre-existing `(date, hash)` row suppresses re-insertion in a
non-replacing run. -/
theorem claim7_witness :
    (generateAllDates true [(1, ⟨5, 0⟩)] [] "h" [⟨5, 0⟩]
        (some [⟨9, ⟨5, 0⟩, none, "other"⟩])).filter
        (fun r => r.hash != "h")
      = [(⟨9, ⟨5, 0⟩, none, "other"⟩ : PGRow)].filter
        (fun r => r.hash != "h")
    ∧ (generateAllDates false [(1, ⟨5, 0⟩)] [] "h" [⟨5, 0⟩]
        (some [⟨1, ⟨5, 0⟩, none, "h"⟩])).filter
        (fun r => r.date == (⟨5, 0⟩ : Ts) && r.hash == "h")
      = [(⟨1, ⟨5, 0⟩, none, "h"⟩ : PGRow)].filter
        (fun r => r.date == (⟨5, 0⟩ : Ts) && r.hash == "h") := by
  constructor
  · exact (claim7_protected_groups_frame [(1, ⟨5, 0⟩)] [] "h" [⟨5, 0⟩]
      [⟨9, ⟨5, 0⟩, none, "other"⟩]).1
  · exact (claim7_protected_groups_frame [(1, ⟨5, 0⟩)] [] "h" [⟨5, 0⟩]
      [⟨1, ⟨5, 0⟩, none, "h"⟩]).2.2 ⟨5, 0⟩
      ⟨⟨1, ⟨5, 0⟩, none, "h"⟩, by decide, rfl, rfl⟩

/-- Looking a key up in an association list built by pairing each key with
its image yields that image exactly for the keys of the list. -/
theorem lookup_map_self (f : String → MVal) :
    ∀ (l : List String) (k : String),
      (l.map (fun k => (k, f k))).lookup k =
        if k ∈ l then some (f k) else none := by
  intro l
  induction l with
  | nil => intro k; simp
  | cons a rest ih =>
    intro k
    by_cases hk : k = a
    · subst hk
      simp [List.lookup]
    · have hba : (k == a) = false := by simp [hk]
      simp [List.lookup, hba, hk, ih]

/-- Claim C6: `ModelGrouper._final_model_group_args` canonicalizes its
input: with a non-empty custom key set, `class_path`, `parameters` and
`feature_names` appear verbatim exactly when named among the keys
(defaulting to `""`, the empty dict and the empty list otherwise) and every
other configured key is copied from `matrix_metadata` into `model_config`;
with no custom keys, `class_path`, `parameters` and the metadata's
`feature_names` are included verbatim and `model_config` is exactly the
seven default keys taken from `matrix_metadata`. -/
theorem claim6_model_group_args (gk : List String) (cp : String)
    (ps : List (String × String)) (md : String → MVal) :
    (gk ≠ [] →
      ((finalModelGroupArgs gk cp ps md).class_path =
          if gk.contains "class_path" then cp else "")
      ∧ ((finalModelGroupArgs gk cp ps md).parameters =
          if gk.contains "parameters" then ps else [])
      ∧ ((finalModelGroupArgs gk cp ps md).feature_names =
          if gk.contains "feature_names" then md "feature_names" else .l [])
      ∧ (∀ k, specialKeys.contains k = false →
          (finalModelGroupArgs gk cp ps md).model_config.lookup k =
            if gk.contains k then some (md k) else none)
      ∧ (∀ k, specialKeys.contains k = true →
          (finalModelGroupArgs gk cp ps md).model_config.lookup k = none))
    ∧ (gk = [] →
      (finalModelGroupArgs gk cp ps md).class_path = cp
      ∧ (finalModelGroupArgs gk cp ps md).parameters = ps
      ∧ (finalModelGroupArgs gk cp ps md).feature_names = md "feature_names"
      ∧ (finalModelGroupArgs gk cp ps md).model_config =
          defaultKeys.map (fun k => (k, md k))) := by
  constructor
  · intro hne
    have hie : gk.isEmpty = false := by
      cases gk with
      | nil => exact absurd rfl hne
      | cons a rest => rfl
    have hargs : finalModelGroupArgs gk cp ps md =
        { class_path := if gk.contains "class_path" then cp else ""
          parameters := if gk.contains "parameters" then ps else []
          feature_names :=
            if gk.contains "feature_names" then md "feature_names" else .l []
          model_config :=
            ((gk.dedup).filter (fun k => !(specialKeys.contains k))).map
              (fun k => (k, md k)) } := by
      unfold finalModelGroupArgs
      rw [if_neg (by simp [hie])]
    refine ⟨by rw [hargs], by rw [hargs], by rw [hargs], ?_, ?_⟩
    · intro k hk
      rw [hargs]
      show (((gk.dedup).filter (fun k => !(specialKeys.contains k))).map
        (fun k => (k, md k))).lookup k = _
      rw [lookup_map_self]
      by_cases hmem : k ∈ gk
      · refine (if_pos (List.mem_filter.mpr
          ⟨List.mem_dedup.mpr hmem, ?_⟩)).trans ?_
        · show (!(specialKeys.contains k)) = true
          rw [hk]
          rfl
        · rw [if_pos (by simpa using hmem)]
      · rw [if_neg (fun hcon =>
          hmem (List.mem_dedup.mp (List.mem_filter.mp hcon).1))]
        rw [if_neg (by simpa using hmem)]
    · intro k hk
      rw [hargs]
      show (((gk.dedup).filter (fun k => !(specialKeys.contains k))).map
        (fun k => (k, md k))).lookup k = _
      rw [lookup_map_self]
      refine if_neg (fun hcon => ?_)
      have := (List.mem_filter.mp hcon).2
      rw [hk] at this
      exact absurd this (by simp)
  · rintro rfl
    exact ⟨rfl, rfl, rfl, rfl⟩

/-- Claim C6 witness: concrete custom-key and default-key instances. -/
theorem claim6_witness :
    ((finalModelGroupArgs ["parameters", "label_name"] "cp" [("p", "1")]
        (fun k => .s k)).class_path = ""
      ∧ (finalModelGroupArgs ["parameters", "label_name"] "cp" [("p", "1")]
        (fun k => .s k)).parameters = [("p", "1")]
      ∧ (finalModelGroupArgs ["parameters", "label_name"] "cp" [("p", "1")]
        (fun k => .s k)).model_config.lookup "label_name" =
          some (.s "label_name"))
    ∧ (finalModelGroupArgs [] "cp" [("p", "1")] (fun k => .s k)).model_config
        = defaultKeys.map (fun k => (k, .s k)) := by
  have h1 := (claim6_model_group_args ["parameters", "label_name"] "cp"
    [("p", "1")] (fun k => .s k)).1 (by simp)
  have h2 := (claim6_model_group_args [] "cp" [("p", "1")]
    (fun k => .s k)).2 rfl
  refine ⟨⟨?_, ?_, ?_⟩, h2.2.2.2⟩
  · rw [h1.1]
    rfl
  · rw [h1.2.1]
    rfl
  · rw [h1.2.2.2.1 "label_name" (by decide)]
    rfl

/-- Claim C10: `SubsetEntityDateTableGenerator.generate_entity_date_table`
performs only the duplicate check and never the non-emptiness check: a
configured query returning zero rows for every as-of-date completes without
raising, silently leaving an empty subset table, and with no query
configured at all it logs a warning and completes (no configuration
error), leaving the state untouched. -/
theorem claim10_subset_generate (cfg1 cfg2 : SubsetCfg) (q : EDQuery)
    (dates : List Ts) (s0 t : Option (List EDRow))
    (hq1 : cfg1.query = some q) (hr : cfg1.replace = true)
    (hz : ∀ d ∈ dates, q.run d = [])
    (hq2 : cfg2.query = none)
    (hnd : tableHasDuplicates (t.getD []) = false) :
    subsetGenerate cfg1 dates s0 = .ok (some [])
    ∧ subsetGenerate cfg2 dates t = .ok t := by
  constructor
  · have hmc : maybeCreate cfg1.replace s0 = [] := by
      simp [maybeCreate, hr]
    have hpop : dates.foldl (subsetStep q cfg1.cohortTable) [] = [] := by
      refine foldl_fixed _ [] dates (fun d hd => ?_)
      unfold subsetStep
      rw [if_neg (by simp), hz d hd]
      rfl
    simp only [subsetGenerate, hq1, hmc, hpop]
    rfl
  · simp only [subsetGenerate, hq2]
    rw [if_neg (by simp [hnd])]

/-- Claim C10 witness: a zero-result query leaves an empty subset table
without raising, and a missing query only warns. -/
theorem claim10_witness :
    subsetGenerate ⟨"subset", some ⟨"sel", fun _ => []⟩, [(1, ⟨1, 0⟩)], true⟩
        [⟨1, 0⟩, ⟨2, 0⟩] none = .ok (some [])
    ∧ subsetGenerate ⟨"subset", none, [], true⟩ [⟨1, 0⟩, ⟨2, 0⟩] none =
        .ok none :=
  claim10_subset_generate _ _ ⟨"sel", fun _ => []⟩ _ none none rfl rfl
    (fun _ _ => rfl) rfl rfl

/-- Claim C1 counterexample: the PostgreSQL adapter does NOT sort the
feature names — it interpolates them in the order supplied
(`feature_names=list(feature_names)`), so two permutations of the same
feature list produce different SQL calls, and a backend procedure
resolving ids from the received call can return different ids for them.
This refutes the claim that both adapters sort the feature names and that
any permutation produces an identical call. -/
theorem claim1_counterexample :
    (["b", "a"] : List String).Perm ["a", "b"]
    ∧ pgModelGroupQuery "triage.C" [] ["b", "a"] []
        ≠ pgModelGroupQuery "triage.C" [] ["a", "b"] []
    ∧ (pgGetModelGroupId true
          (fun s => if containsSub "ARRAY['a', 'b']" s then 1 else 2)
          "triage.C" [] ["b", "a"] []).1
        ≠ (pgGetModelGroupId true
          (fun s => if containsSub "ARRAY['a', 'b']" s then 1 else 2)
          "triage.C" [] ["a", "b"] []).1 :=
  ⟨by decide, by decide, by decide⟩

/-- Claim C1 as amended: only the Oracle adapter sorts the feature names
(joining them into a sorted comma-separated string), so for it any
permutation of the feature list produces an identical call and an identical
id; the PostgreSQL adapter passes the feature names in the order supplied,
so permuted feature lists produce different SQL text. -/
theorem claim1_amended_oracle (pe : Bool) (proc : OracleCall → Nat)
    (cp : String) (ps mc : List (String × String)) (fs fs2 : List String)
    (hperm : fs.Perm fs2) :
    oracleGetModelGroupId pe proc cp ps fs mc =
      oracleGetModelGroupId pe proc cp ps fs2 mc := by
  have hsort : fs.insertionSort (fun a b => a ≤ b) =
      fs2.insertionSort (fun a b => a ≤ b) := by
    apply List.eq_of_perm_of_sorted (r := (fun a b : String => a ≤ b))
    · exact (List.perm_insertionSort _ fs).trans
        (hperm.trans (List.perm_insertionSort _ fs2).symm)
    · exact List.sorted_insertionSort _ fs
    · exact List.sorted_insertionSort _ fs2
  unfold oracleGetModelGroupId
  rw [hsort]

/-- Claim C1 witness: a concrete permuted pair of feature lists yields
identical Oracle calls and ids. -/
theorem claim1_amended_witness :
    oracleGetModelGroupId true (fun c => c.feature_names_list.length)
      "cp" [] ["b", "a"] [] =
    oracleGetModelGroupId true (fun c => c.feature_names_list.length)
      "cp" [] ["a", "b"] [] :=
  claim1_amended_oracle true _ "cp" [] [] ["b", "a"] ["a", "b"] (by decide)

/-- Claim C8: when the backend stored procedure/function
`get_model_group_id` is absent, both adapters return no identity (`none`)
without raising and without making any procedure call (the second
component, the call made, is `none`: only the read-only catalog existence
check ran, so no row was inserted). -/
theorem claim8_missing_procedure (proc : String → Nat)
    (oproc : OracleCall → Nat) (cp : String) (ps : List (String × String))
    (fs : List String) (mc : List (String × String)) :
    pgGetModelGroupId false proc cp ps fs mc = (none, none)
    ∧ oracleGetModelGroupId false oproc cp ps fs mc = (none, none) :=
  ⟨rfl, rfl⟩

/-- Claim C9: schema-factory auto-detection resolves in a fixed order —
`postgresql`/`postgres` URL keyword first, then `oracle`, then (on no URL
match) psycopg2 availability, then oracledb availability, then the
PostgreSQL default — `get_schema_factory` auto-configures on first access
when no factory is set, and `set_schema_factory` with an explicit adapter
overrides any prior binding without running detection. -/
theorem claim9_schema_factory :
    (∀ (u : String) (p o : Bool), u ≠ "" →
      (containsSub "postgresql" u || containsSub "postgres" u) = true →
      autoDetectAdapter (some u) p o = .pg)
    ∧ (∀ (u : String) (p o : Bool), u ≠ "" →
        (containsSub "postgresql" u || containsSub "postgres" u) = false →
        containsSub "oracle" u = true →
        autoDetectAdapter (some u) p o = .ora)
    ∧ (∀ (u : String) (p o : Bool),
        (containsSub "postgresql" u || containsSub "postgres" u) = false →
        containsSub "oracle" u = false →
        autoDetectAdapter (some u) p o = driverProbe p o)
    ∧ (∀ o : Bool, driverProbe true o = .pg)
    ∧ driverProbe false true = .ora
    ∧ driverProbe false false = .pg
    ∧ (∀ p o : Bool, getSchemaFactory p o none =
        (autoDetectAdapter none p o, some (autoDetectAdapter none p o)))
    ∧ (∀ (a : AdapterKind) (url : Option String) (p o : Bool)
        (st : Option AdapterKind),
        setSchemaFactory (some a) url p o st = some a) := by
  refine ⟨?_, ?_, ?_, fun o => rfl, rfl, rfl, fun p o => rfl,
    fun a url p o st => rfl⟩
  · intro u p o hne hmatch
    simp only [autoDetectAdapter]
    rw [if_pos (by simp [hne, hmatch])]
  · intro u p o hne hno hora
    simp only [autoDetectAdapter]
    rw [if_neg (by simp [hno]), if_pos (by simp [hne, hora])]
  · intro u p o hno hnora
    simp only [autoDetectAdapter]
    rw [if_neg (by simp [hno]), if_neg (by simp [hnora])]

/-- Claim C9 witness: concrete URLs and driver availabilities exercise the
URL-keyword, Oracle-keyword and no-match branches. -/
theorem claim9_witness :
    autoDetectAdapter (some "postgresql://db") false true = .pg
    ∧ autoDetectAdapter (some "oracle://db") true false = .ora
    ∧ autoDetectAdapter (some "mysql://db") false true = driverProbe false true := by
  refine ⟨?_, ?_, ?_⟩
  · exact claim9_schema_factory.1 "postgresql://db" false true
      (by decide) (by decide)
  · exact claim9_schema_factory.2.1 "oracle://db" true false
      (by decide) (by decide) (by decide)
  · exact claim9_schema_factory.2.2.1 "mysql://db" false true
      (by decide) (by decide)

end Triage
